import Mathlib

/-!
Verification of the Impeller shader reflector
(`impeller/compiler/reflector.cc`).

The C++ code is shallowly embedded below.  Machine integers are modelled
as `Nat` with explicit reductions: `size_t` arithmetic is performed
modulo `2 ^ 64` (`size_t_mod`) and `uint32_t` arithmetic modulo `2 ^ 32`
(`u32_mod`).  The upstream SPIRV-Cross compiler/IR is modelled as a
read-only query structure (`Compiler`); the process-wide atomic counter
that backs anonymous member naming is threaded explicitly as a `Nat`
state; the recursive type-alias traversal of
`GetMemberNameAtIndexIfExists` is given an explicit fuel bound, as the
unbounded C++ recursion terminates exactly on alias chains that reach
alias id `0`.
-/

namespace Impeller

/-- `size_t` modulus (64-bit host). -/
def size_t_mod : Nat := 2 ^ 64

/-- `uint32_t` modulus. -/
def u32_mod : Nat := 2 ^ 32

/-- `sizeof(bool)` on the host. -/
def sizeofBool : Nat := 1

/-- `sizeof(Scalar)` (= `sizeof(float)`). -/
def sizeofScalar : Nat := 4

/-- `sizeof(float)`. -/
def sizeofFloat : Nat := 4

/-- `sizeof(uint32_t)`. -/
def sizeofUInt32 : Nat := 4

/-- `sizeof(int32_t)`. -/
def sizeofInt32 : Nat := 4

/-- `sizeof(impeller::Matrix)` (4x4 floats). -/
def sizeofMatrix : Nat := 64

/-- `sizeof(impeller::Point)` (2 floats). -/
def sizeofPoint : Nat := 8

/-- `sizeof(impeller::Vector3)` (3 floats). -/
def sizeofVector3 : Nat := 12

/-- `sizeof(impeller::Vector4)` (4 floats). -/
def sizeofVector4 : Nat := 16

/-- `spirv_cross::SPIRType::BaseType`. -/
inductive BaseType where
  | Void
  | Boolean
  | SByte
  | UByte
  | Short
  | UShort
  | Int
  | UInt
  | Int64
  | UInt64
  | AtomicCounter
  | Half
  | Float
  | Double
  | Struct
  | Image
  | SampledImage
  | Sampler
  | Unknown
  deriving DecidableEq, Repr

/-- `spirv_cross::SPIRType`: the resolved type record queried from the
upstream compiler.  `width`, `vecsize` and `columns` are `uint32_t`
values; `member_types` lists the member type ids of a struct type;
`type_alias` is the id of the aliased type (0 when there is none);
`self` is the type's own id. -/
structure SPIRType where
  basetype : BaseType
  width : Nat
  vecsize : Nat
  columns : Nat
  member_types : List Nat
  type_alias : Nat
  self : Nat
  deriving DecidableEq, Repr

/-- `spv::ExecutionModel`, restricted to the cases the reflector
distinguishes (everything else falls into the default branch). -/
inductive ExecutionModel where
  | Vertex
  | Fragment
  | Other
  deriving DecidableEq, Repr

/-- One element of `compiler_->get_entry_points_and_stages()`. -/
structure EntryPoint where
  name : String
  execution_model : ExecutionModel
  deriving DecidableEq, Repr

/-- `spirv_cross::Resource`. -/
structure Resource where
  id : Nat
  type_id : Nat
  name : String
  deriving DecidableEq, Repr

/-- `spirv_cross::ShaderResources`, restricted to the categories the
reflector reads. -/
structure ShaderResources where
  uniform_buffers : List Resource
  stage_inputs : List Resource
  sampled_images : List Resource
  separate_images : List Resource
  separate_samplers : List Resource
  stage_outputs : List Resource

/-- The read-only query interface of the upstream module
(`ParsedIR` + `CompilerMSL`).  `types` is `get_type`, `names` is
`get_name`, the `decoration*` fields are `get_decoration` for each
decoration kind the reflector queries, the `mslRes*` fields are the four
automatic MSL resource-binding queries, `meta` is `ir_->meta` restricted
to the per-member alias strings, `typeSeq` is the sequence of types
visited by `ir_->for_each_typed_id<SPIRType>` (it may repeat a type). -/
structure Compiler where
  entry_points : List EntryPoint
  shader_resources : ShaderResources
  types : Nat → SPIRType
  names : Nat → String
  decorationDescriptorSet : Nat → Nat
  decorationBinding : Nat → Nat
  decorationLocation : Nat → Nat
  decorationIndex : Nat → Nat
  mslRes0 : Nat → Nat
  mslRes1 : Nat → Nat
  mslRes2 : Nat → Nat
  mslRes3 : Nat → Nat
  meta : Nat → Option (List String)
  typeSeq : List SPIRType

/-- `Reflector::Options`. -/
structure Options where
  shader_name : String
  header_file_name : String

/-- `BaseTypeToString`. -/
def BaseTypeToString : BaseType → String
  | .Void => "ShaderType::kVoid"
  | .Boolean => "ShaderType::kBoolean"
  | .SByte => "ShaderType::kSignedByte"
  | .UByte => "ShaderType::kUnsignedByte"
  | .Short => "ShaderType::kSignedShort"
  | .UShort => "ShaderType::kUnsignedShort"
  | .Int => "ShaderType::kSignedInt"
  | .UInt => "ShaderType::kUnsignedInt"
  | .Int64 => "ShaderType::kSignedInt64"
  | .UInt64 => "ShaderType::kUnsignedInt64"
  | .AtomicCounter => "ShaderType::kAtomicCounter"
  | .Half => "ShaderType::kHalfFloat"
  | .Float => "ShaderType::kFloat"
  | .Double => "ShaderType::kDouble"
  | .Struct => "ShaderType::kStruct"
  | .Image => "ShaderType::kImage"
  | .SampledImage => "ShaderType::kSampledImage"
  | .Sampler => "ShaderType::kSampler"
  | .Unknown => "ShaderType::kUnknown"

/-- `ExecutionModelToString`. -/
def ExecutionModelToString : ExecutionModel → String
  | .Vertex => "vertex"
  | .Fragment => "fragment"
  | .Other => "unsupported"

/-- `StringToShaderStage`. -/
def StringToShaderStage (str : String) : String :=
  if str = "vertex" then "ShaderStage::kVertex"
  else if str = "fragment" then "ShaderStage::kFragment"
  else "ShaderStage::kUnknown"

/-- `TypeNameWithPaddingOfSize`. -/
def TypeNameWithPaddingOfSize (size : Nat) : String :=
  "Padding<" ++ toString size ++ ">"

/-- Whether the pattern (first argument) is a prefix of the text. -/
def startsWithChars : List Char → List Char → Bool
  | [], _ => true
  | _ :: _, [] => false
  | p :: ps, t :: ts => p == t && startsWithChars ps ts

/-- Whether the pattern occurs as a contiguous substring of the text. -/
def hasSubstrChars (pat : List Char) : List Char → Bool
  | [] => startsWithChars pat []
  | ch :: ts => startsWithChars pat (ch :: ts) || hasSubstrChars pat ts

/-- `struct_name.find("_RESERVED_IDENTIFIER_") != std::string::npos`. -/
def containsReservedIdentifier (s : String) : Bool :=
  hasSubstrChars "_RESERVED_IDENTIFIER_".data s.data

/-- `KnownType` (reflector.cc). -/
structure KnownType where
  name : String
  byte_size : Nat
  deriving DecidableEq, Repr

/-- `ReadKnownScalarType`. -/
def ReadKnownScalarType : BaseType → Option KnownType
  | .Boolean => some { name := "bool", byte_size := sizeofBool }
  | .Float => some { name := "Scalar", byte_size := sizeofScalar }
  | .UInt => some { name := "uint32_t", byte_size := sizeofUInt32 }
  | .Int => some { name := "int32_t", byte_size := sizeofInt32 }
  | _ => none

/-- The leaf lookup of `GetMemberNameAtIndexIfExists`: find the parent
type's meta entry and return the member alias at `index` when it exists
and is non-empty. -/
def lookupMemberAlias (c : Compiler) (parent : SPIRType) (index : Nat) :
    Option String :=
  match c.meta parent.self with
  | some members =>
      if index < members.length ∧ members.getD index "" ≠ "" then
        some (members.getD index "")
      else
        none
  | none => none

/-- `Reflector::GetMemberNameAtIndexIfExists`.  The C++ recursion through
`type_alias` is bounded here by explicit fuel: exceeding the bound on a
longer (or cyclic) alias chain yields no name. -/
def GetMemberNameAtIndexIfExists (c : Compiler) :
    Nat → SPIRType → Nat → Option String
  | 0, parent, index =>
      if parent.type_alias ≠ 0 then none
      else lookupMemberAlias c parent index
  | fuel + 1, parent, index =>
      if parent.type_alias ≠ 0 then
        GetMemberNameAtIndexIfExists c fuel (c.types parent.type_alias) index
      else lookupMemberAlias c parent index

/-- Follow the `type_alias` chain from a type to its underlying root
type (the first type on the chain whose alias id is 0), giving up after
`n` dereferences. -/
def resolveAliasRoot (c : Compiler) : Nat → SPIRType → Option SPIRType
  | 0, t => if t.type_alias = 0 then some t else none
  | n + 1, t =>
      if t.type_alias = 0 then some t
      else resolveAliasRoot c n (c.types t.type_alias)

/-- `Reflector::GetMemberNameAtIndex`.  `counter` is the current value of
the process-wide `sUnnamedMembersID` atomic; the post-increment value is
returned alongside the name. -/
def GetMemberNameAtIndex (c : Compiler) (fuel counter : Nat)
    (parent : SPIRType) (index : Nat) (suffix : String) : String × Nat :=
  match GetMemberNameAtIndexIfExists c fuel parent index with
  | some name => (name, counter)
  | none => ("unnamed_" ++ toString counter ++ suffix, counter + 1)

/-- `Reflector::StructMember`. -/
structure StructMember where
  type : String
  name : String
  offset : Nat
  byte_length : Nat
  deriving DecidableEq, Repr

/-- Placeholder member used as the default of list indexing. -/
def dummyMember : StructMember :=
  { type := "", name := "", offset := 0, byte_length := 0 }

/-- `Reflector::StructDefinition`. -/
structure StructDefinition where
  name : String
  byte_length : Nat
  members : List StructMember
  deriving DecidableEq, Repr

/-- The layout-relevant projection of a member (type tag, offset, byte
length), ignoring the synthesized name. -/
def memberShape (m : StructMember) : String × Nat × Nat :=
  (m.type, m.offset, m.byte_length)

/-- `size_t` subtraction `a - b`: wraps around on underflow. -/
def sizeTSub (a b : Nat) : Nat :=
  (a + size_t_mod - b) % size_t_mod

/-- `size_t` accumulation of member byte lengths starting from `t`. -/
def sumFold (t : Nat) (ms : List StructMember) : Nat :=
  ms.foldl (fun a m => (a + m.byte_length) % size_t_mod) t

/-- `size_t` sum of the `byte_length` fields of a member list. -/
def sumBytesSizeT (ms : List StructMember) : Nat :=
  sumFold 0 ms

/-- One raw member's natural size
`(width * vecsize * columns) / 8u` in `uint32_t` arithmetic
(reflector.cc line 511). -/
def rawSize (t : SPIRType) : Nat :=
  ((t.width * t.vecsize * t.columns) % u32_mod) / 8

/-- The total size loop of `Reflector::ReflectStructDefinition`
(lines 507-512): `size_t` accumulation of each raw member's natural
size. -/
def rawByteLength (c : Compiler) (t : SPIRType) : Nat :=
  t.member_types.foldl (fun acc mt => (acc + rawSize (c.types mt)) % size_t_mod) 0

/-- The member loop of `Reflector::ReadStructMembers` (lines 378-491).
`st` is the struct type (used for name lookups), `tids` the remaining
member type ids, `i` the member index, `total` the running
`total_byte_length` (a `size_t`, kept reduced modulo `2 ^ 64`) and
`counter` the anonymous-namer state.  Returns the emitted members and
the final counter. -/
def readStructMembersLoop (c : Compiler) (fuel : Nat) (st : SPIRType) :
    List Nat → Nat → Nat → Nat → List StructMember × Nat
  | [], _, _, counter => ([], counter)
  | mtid :: rest, i, total, counter =>
      let member := c.types mtid
      -- Tightly packed 4x4 Matrix.
      if member.basetype = BaseType.Float ∧ member.width = sizeofScalar * 8 ∧
          member.columns = 4 ∧ member.vecsize = 4 then
        let nm := GetMemberNameAtIndex c fuel counter st i ""
        let r := readStructMembersLoop c fuel st rest (i + 1)
          ((total + sizeofMatrix) % size_t_mod) nm.2
        ({ type := "Matrix", name := nm.1, offset := total,
           byte_length := sizeofMatrix } :: r.1, r.2)
      -- Tightly packed Point.
      else if member.basetype = BaseType.Float ∧ member.width = sizeofFloat * 8 ∧
          member.columns = 1 ∧ member.vecsize = 2 then
        let nm := GetMemberNameAtIndex c fuel counter st i ""
        let r := readStructMembersLoop c fuel st rest (i + 1)
          ((total + sizeofPoint) % size_t_mod) nm.2
        ({ type := "Point", name := nm.1, offset := total,
           byte_length := sizeofPoint } :: r.1, r.2)
      -- Tightly packed Vector3.
      else if member.basetype = BaseType.Float ∧ member.width = sizeofFloat * 8 ∧
          member.columns = 1 ∧ member.vecsize = 3 then
        let nm := GetMemberNameAtIndex c fuel counter st i ""
        let r := readStructMembersLoop c fuel st rest (i + 1)
          ((total + sizeofVector3) % size_t_mod) nm.2
        ({ type := "Vector3", name := nm.1, offset := total,
           byte_length := sizeofVector3 } :: r.1, r.2)
      -- Tightly packed Vector4.
      else if member.basetype = BaseType.Float ∧ member.width = sizeofFloat * 8 ∧
          member.columns = 1 ∧ member.vecsize = 4 then
        let nm := GetMemberNameAtIndex c fuel counter st i ""
        let r := readStructMembersLoop c fuel st rest (i + 1)
          ((total + sizeofVector4) % size_t_mod) nm.2
        ({ type := "Vector4", name := nm.1, offset := total,
           byte_length := sizeofVector4 } :: r.1, r.2)
      else
        match ReadKnownScalarType member.basetype with
        | some kt =>
            -- Other single isolated scalars.
            if member.columns = 1 ∧ member.vecsize = 1 then
              let nm := GetMemberNameAtIndex c fuel counter st i ""
              let t1 := (total + kt.byte_size) % size_t_mod
              -- `(member.width / 8u) - byte_size` in `size_t` arithmetic.
              let padding := sizeTSub (member.width / 8) kt.byte_size
              if padding ≠ 0 then
                let pnm := GetMemberNameAtIndex c fuel nm.2 st i "_pad"
                let r := readStructMembersLoop c fuel st rest (i + 1)
                  ((t1 + padding) % size_t_mod) pnm.2
                ({ type := kt.name, name := nm.1, offset := total,
                   byte_length := kt.byte_size } ::
                 { type := TypeNameWithPaddingOfSize padding, name := pnm.1,
                   offset := t1, byte_length := padding } :: r.1, r.2)
              else
                let r := readStructMembersLoop c fuel st rest (i + 1) t1 nm.2
                ({ type := kt.name, name := nm.1, offset := total,
                   byte_length := kt.byte_size } :: r.1, r.2)
            else
              -- Catch all for unknown types.
              let byte_length :=
                ((member.width * member.columns * member.vecsize) % u32_mod) / 8
              let nm := GetMemberNameAtIndex c fuel counter st i ""
              let r := readStructMembersLoop c fuel st rest (i + 1)
                ((total + byte_length) % size_t_mod) nm.2
              ({ type := TypeNameWithPaddingOfSize byte_length, name := nm.1,
                 offset := total, byte_length := byte_length } :: r.1, r.2)
        | none =>
            -- Catch all for unknown types.
            let byte_length :=
              ((member.width * member.columns * member.vecsize) % u32_mod) / 8
            let nm := GetMemberNameAtIndex c fuel counter st i ""
            let r := readStructMembersLoop c fuel st rest (i + 1)
              ((total + byte_length) % size_t_mod) nm.2
            ({ type := TypeNameWithPaddingOfSize byte_length, name := nm.1,
               offset := total, byte_length := byte_length } :: r.1, r.2)

/-- `Reflector::ReadStructMembers`.  The `FML_CHECK` that the type is a
struct is a caller precondition, not part of the returned data. -/
def ReadStructMembers (c : Compiler) (fuel counter : Nat) (type_id : Nat) :
    List StructMember × Nat :=
  let struct_type := c.types type_id
  readStructMembersLoop c fuel struct_type struct_type.member_types 0 0 counter

/-- `Reflector::ReflectStructDefinition`. -/
def ReflectStructDefinition (c : Compiler) (fuel counter : Nat)
    (type_id : Nat) : Option (StructDefinition × Nat) :=
  let type := c.types type_id
  if type.basetype ≠ BaseType.Struct then none
  else if containsReservedIdentifier (c.names type_id) then none
  else
    let r := ReadStructMembers c fuel counter type_id
    some ({ name := c.names type_id, byte_length := rawByteLength c type,
            members := r.1 }, r.2)

/-- The type object produced by `Reflector::ReflectType`. -/
structure ReflectedType where
  type_name : String
  bit_width : Nat
  vec_size : Nat
  columns : Nat
  deriving DecidableEq, Repr

/-- The resource object produced by `Reflector::ReflectResource`. -/
structure ReflectedResource where
  name : String
  descriptor_set : Nat
  binding : Nat
  location : Nat
  index : Nat
  msl_res_0 : Nat
  msl_res_1 : Nat
  msl_res_2 : Nat
  msl_res_3 : Nat
  type : ReflectedType
  deriving DecidableEq, Repr

/-- `Reflector::ReflectType`.  The C++ function unconditionally builds
its result object; the `Option` return mirrors its signature. -/
def ReflectType (c : Compiler) (type_id : Nat) : Option ReflectedType :=
  let type := c.types type_id
  some { type_name := BaseTypeToString type.basetype, bit_width := type.width,
         vec_size := type.vecsize, columns := type.columns }

/-- `Reflector::ReflectResource`. -/
def ReflectResource (c : Compiler) (resource : Resource) :
    Option ReflectedResource :=
  match ReflectType c resource.type_id with
  | none => none
  | some t =>
      some { name := resource.name,
             descriptor_set := c.decorationDescriptorSet resource.id,
             binding := c.decorationBinding resource.id,
             location := c.decorationLocation resource.id,
             index := c.decorationIndex resource.id,
             msl_res_0 := c.mslRes0 resource.id,
             msl_res_1 := c.mslRes1 resource.id,
             msl_res_2 := c.mslRes2 resource.id,
             msl_res_3 := c.mslRes3 resource.id,
             type := t }

/-- `Reflector::ReflectResources`: reflect each resource in order,
failing the whole list on the first failing resource. -/
def ReflectResources (c : Compiler) :
    List Resource → Option (List ReflectedResource)
  | [] => some []
  | resource :: rest =>
      match ReflectResource c resource with
      | none => none
      | some j =>
          match ReflectResources c rest with
          | none => none
          | some js => some (j :: js)

/-- `VertexType` (reflector.cc). -/
structure VertexType where
  type_name : String
  variable_name : String
  byte_length : Nat
  deriving DecidableEq, Repr

/-- `VertexTypeFromInputResource`. -/
def VertexTypeFromInputResource (c : Compiler) (resource : Resource) :
    VertexType :=
  let type := c.types resource.type_id
  let total_size := ((type.columns * type.vecsize * type.width) % u32_mod) / 8
  let type_name :=
    if type.basetype = BaseType.Float ∧ type.columns = 1 ∧
        type.vecsize = 2 ∧ type.width = sizeofFloat * 8 then "Point"
    else if type.basetype = BaseType.Float ∧ type.columns = 1 ∧
        type.vecsize = 4 ∧ type.width = sizeofFloat * 8 then "Vector4"
    else if type.basetype = BaseType.Float ∧ type.columns = 1 ∧
        type.vecsize = 3 ∧ type.width = sizeofFloat * 8 then "Vector3"
    else TypeNameWithPaddingOfSize total_size
  { type_name := type_name, variable_name := resource.name,
    byte_length := total_size }

/-- The declared locations of a stage-input list, in declaration
order. -/
def locationsOf (c : Compiler) (stage_inputs : List Resource) : List Nat :=
  stage_inputs.map (fun input => c.decorationLocation input.id)

/-- The member-building loop of
`Reflector::ReflectPerVertexStructDefinition` (lines 611-625): for each
location (in ascending order), find the input declared at that location
and append a member at the running `byte_length` offset.  Returns the
members and the final total byte length. -/
def pvLoop (c : Compiler) (stage_inputs : List Resource) :
    List Nat → Nat → Option (List StructMember × Nat)
  | [], total => some ([], total)
  | i :: rest, total =>
      match stage_inputs.find?
          (fun input => c.decorationLocation input.id == i) with
      | none => none
      | some resource =>
          let vt := VertexTypeFromInputResource c resource
          match pvLoop c stage_inputs rest
              ((total + vt.byte_length) % size_t_mod) with
          | none => none
          | some (ms, t) =>
              some ({ type := vt.type_name, name := vt.variable_name,
                      offset := total, byte_length := vt.byte_length } :: ms, t)

/-- `Reflector::ReflectPerVertexStructDefinition`. -/
def ReflectPerVertexStructDefinition (c : Compiler)
    (stage_inputs : List Resource) : Option StructDefinition :=
  -- Avoid emitting a zero sized structure.
  if stage_inputs.isEmpty then none
  else
    let locs := locationsOf c stage_inputs
    -- Validate there are no duplicate locations.
    if locs.Nodup then
      -- Validate locations are contiguous.
      if (List.range locs.length).all (fun i => locs.contains i) then
        match pvLoop c stage_inputs (List.range locs.length) 0 with
        | none => none
        | some (ms, total) =>
            some { name := "PerVertexData", byte_length := total, members := ms }
      else none
    else none

/-- The success condition of `Reflector::ReflectStructDefinition`
(independent of the anonymous-namer state): the type is a struct and its
name does not carry the reserved-identifier marker. -/
def reflectOK (c : Compiler) (type_id : Nat) : Bool :=
  ((c.types type_id).basetype == BaseType.Struct) &&
    !containsReservedIdentifier (c.names type_id)

/-- The struct-definition scan of `Reflector::GenerateTemplateArguments`
(lines 227-238): walk the module's type sequence, skipping type ids
already in the visited set (`known_structs`), and collect each
successfully reflected definition tagged with the type id it came
from. -/
def structDefsLoop (c : Compiler) (fuel : Nat) :
    List SPIRType → List Nat → Nat → List (Nat × StructDefinition) × Nat
  | [], _, counter => ([], counter)
  | t :: rest, visited, counter =>
      if t.self ∈ visited then structDefsLoop c fuel rest visited counter
      else
        match ReflectStructDefinition c fuel counter t.self with
        | some (d, counter') =>
            let r := structDefsLoop c fuel rest (t.self :: visited) counter'
            ((t.self, d) :: r.1, r.2)
        | none => structDefsLoop c fuel rest (t.self :: visited) counter

/-- The per-vertex part of `struct_definitions` (lines 218-225): when
the single entry point is a vertex stage and synthesis succeeds, the
synthesized structure is emitted first. -/
def pvStructPart (c : Compiler) : List StructDefinition :=
  match c.entry_points with
  | [ep] =>
      if ep.execution_model = ExecutionModel.Vertex then
        match ReflectPerVertexStructDefinition c
            c.shader_resources.stage_inputs with
        | some s => [s]
        | none => []
      else []
  | _ => []

/-- The reflection document (the JSON `root` of
`Reflector::GenerateTemplateArguments`, with its object structure made
explicit). -/
structure RootDoc where
  entrypoint : String
  shader_name : String
  shader_stage : String
  header_file_name : String
  uniform_buffers : List ReflectedResource
  stage_inputs : List ReflectedResource
  sampled_images : List ReflectedResource
  stage_outputs : List ReflectedResource
  struct_definitions : List StructDefinition
  deriving DecidableEq, Repr

/-- `Reflector::GenerateTemplateArguments`. -/
def GenerateTemplateArguments (c : Compiler) (opts : Options)
    (fuel counter : Nat) : Option RootDoc :=
  match c.entry_points with
  | [ep] =>
      let sr := c.shader_resources
      match ReflectResources c sr.uniform_buffers with
      | none => none
      | some uniform_buffers =>
          match ReflectResources c sr.stage_inputs with
          | none => none
          | some stage_inputs =>
              match ReflectResources c sr.sampled_images,
                  ReflectResources c sr.separate_images,
                  ReflectResources c sr.separate_samplers with
              | some combined_sampled_images, some images, some samplers =>
                  match ReflectResources c sr.stage_outputs with
                  | none => none
                  | some stage_outputs =>
                      some { entrypoint := ep.name,
                             shader_name := opts.shader_name,
                             shader_stage :=
                               ExecutionModelToString ep.execution_model,
                             header_file_name := opts.header_file_name,
                             uniform_buffers := uniform_buffers,
                             stage_inputs := stage_inputs,
                             sampled_images :=
                               combined_sampled_images ++ images ++ samplers,
                             stage_outputs := stage_outputs,
                             struct_definitions :=
                               pvStructPart c ++
                                 (structDefsLoop c fuel c.typeSeq []
                                   counter).1.map Prod.snd }
              | _, _, _ => none
  | _ => none

/-- The observable state established by the `Reflector` constructor:
the stored document and the two rendered artifacts (when reached), and
the validity flag. -/
structure ReflectorState where
  template_arguments : Option RootDoc
  reflection_header : Option String
  reflection_cc : Option String
  is_valid : Bool
  deriving DecidableEq, Repr

/-- The `Reflector` constructor (lines 91-120).  The template engine is
external; `renderHeader`/`renderCC` stand for `GenerateReflectionHeader`
and `GenerateReflectionCC` applied to the stored document, each of which
may fail. -/
def mkReflector (c : Compiler) (opts : Options) (fuel counter : Nat)
    (renderHeader renderCC : RootDoc → Option String) : ReflectorState :=
  match GenerateTemplateArguments c opts fuel counter with
  | none =>
      { template_arguments := none, reflection_header := none,
        reflection_cc := none, is_valid := false }
  | some root =>
      match renderHeader root with
      | none =>
          { template_arguments := some root, reflection_header := none,
            reflection_cc := none, is_valid := false }
      | some header =>
          match renderCC root with
          | none =>
              { template_arguments := some root,
                reflection_header := some header, reflection_cc := none,
                is_valid := false }
          | some cc =>
              { template_arguments := some root,
                reflection_header := some header, reflection_cc := some cc,
                is_valid := true }

/-- Offsets in `ms` are the running `size_t` totals starting at `t`:
each member sits at the accumulated offset of everything before it. -/
def ChainFrom : Nat → List StructMember → Prop
  | _, [] => True
  | t, m :: ms => m.offset = t ∧ ChainFrom ((t + m.byte_length) % size_t_mod) ms

/-! Concrete modules used to exercise the theorems on closed inputs. -/

/-- A placeholder type for unmapped ids. -/
def defaultSpt : SPIRType :=
  { basetype := BaseType.Void, width := 0, vecsize := 1, columns := 1,
    member_types := [], type_alias := 0, self := 999 }

/-- Types of the sample module: id 0 is a struct of a 32-bit boolean, a
32-bit unsigned integer and a 4x4 float matrix; id 5 is a struct of two
recognized scalars; ids 10 and 11 are the float vec2/vec4 stage-input
types. -/
def sampleTypes : Nat → SPIRType := fun id =>
  if id = 0 then
    { basetype := BaseType.Struct, width := 0, vecsize := 1, columns := 1,
      member_types := [1, 2, 3], type_alias := 0, self := 0 }
  else if id = 1 then
    { basetype := BaseType.Boolean, width := 32, vecsize := 1, columns := 1,
      member_types := [], type_alias := 0, self := 1 }
  else if id = 2 then
    { basetype := BaseType.UInt, width := 32, vecsize := 1, columns := 1,
      member_types := [], type_alias := 0, self := 2 }
  else if id = 3 then
    { basetype := BaseType.Float, width := 32, vecsize := 4, columns := 4,
      member_types := [], type_alias := 0, self := 3 }
  else if id = 5 then
    { basetype := BaseType.Struct, width := 0, vecsize := 1, columns := 1,
      member_types := [1, 2], type_alias := 0, self := 5 }
  else if id = 10 then
    { basetype := BaseType.Float, width := 32, vecsize := 2, columns := 1,
      member_types := [], type_alias := 0, self := 10 }
  else if id = 11 then
    { basetype := BaseType.Float, width := 32, vecsize := 4, columns := 1,
      member_types := [], type_alias := 0, self := 11 }
  else defaultSpt

/-- A sample vertex module with two stage inputs at locations 0 and 1,
one resource per sampled-image category, and a struct type that the
type sequence yields twice. -/
def sampleCompiler : Compiler :=
  { entry_points := [{ name := "main", execution_model := ExecutionModel.Vertex }]
    shader_resources :=
      { uniform_buffers := []
        stage_inputs := [{ id := 20, type_id := 10, name := "position" },
                         { id := 21, type_id := 11, name := "color" }]
        sampled_images := [{ id := 30, type_id := 50, name := "tex" }]
        separate_images := [{ id := 31, type_id := 51, name := "img" }]
        separate_samplers := [{ id := 32, type_id := 52, name := "smp" }]
        stage_outputs := [] }
    types := sampleTypes
    names := fun id => if id = 0 then "Uniforms" else ""
    decorationDescriptorSet := fun _ => 0
    decorationBinding := fun _ => 0
    decorationLocation := fun id =>
      if id = 20 then 0 else if id = 21 then 1 else 0
    decorationIndex := fun _ => 0
    mslRes0 := fun _ => 0
    mslRes1 := fun _ => 0
    mslRes2 := fun _ => 0
    mslRes3 := fun _ => 0
    meta := fun _ => none
    typeSeq := [sampleTypes 0, sampleTypes 0, sampleTypes 1] }

/-- Options used with the sample module. -/
def sampleOptions : Options :=
  { shader_name := "sample", header_file_name := "sample.h" }

/-- The sample module with its entry-point list emptied: a malformed
module with zero entry points. -/
def noEntryCompiler : Compiler :=
  { sampleCompiler with entry_points := [] }

/-- A module whose type id 1 is a `Float` scalar declared at bit width
33: its width exceeds `8 * sizeof(Scalar)` yet `width / 8` equals the
mapped byte size, so no padding member follows it. -/
def width33Compiler : Compiler :=
  { sampleCompiler with
    types := fun id =>
      if id = 0 then
        { basetype := BaseType.Struct, width := 0, vecsize := 1, columns := 1,
          member_types := [1], type_alias := 0, self := 0 }
      else if id = 1 then
        { basetype := BaseType.Float, width := 33, vecsize := 1, columns := 1,
          member_types := [], type_alias := 0, self := 1 }
      else defaultSpt }

/-- A module with a type-alias chain: the type `aliasedType` points at
type id 6, which points at the root type id 7 whose meta entry declares
the member alias "x" at index 0 and an empty alias at index 1. -/
def aliasCompiler : Compiler :=
  { sampleCompiler with
    types := fun id =>
      if id = 6 then
        { basetype := BaseType.Struct, width := 0, vecsize := 1, columns := 1,
          member_types := [1, 2], type_alias := 7, self := 6 }
      else if id = 7 then
        { basetype := BaseType.Struct, width := 0, vecsize := 1, columns := 1,
          member_types := [1, 2], type_alias := 0, self := 7 }
      else sampleTypes id
    meta := fun id => if id = 7 then some ["x", ""] else none }

/-- The start of the alias chain in `aliasCompiler`. -/
def aliasedType : SPIRType :=
  { basetype := BaseType.Struct, width := 0, vecsize := 1, columns := 1,
    member_types := [1, 2], type_alias := 6, self := 8 }

lemma sumFold_nil (t : Nat) : sumFold t [] = t := rfl

lemma sumFold_cons (t : Nat) (m : StructMember) (ms : List StructMember) :
    sumFold t (m :: ms) = sumFold ((t + m.byte_length) % size_t_mod) ms := rfl

lemma sumFold_append (t : Nat) (xs ys : List StructMember) :
    sumFold t (xs ++ ys) = sumFold (sumFold t xs) ys := by
  simp [sumFold, List.foldl_append]

lemma chainFrom_append (t : Nat) (xs ys : List StructMember) :
    ChainFrom t (xs ++ ys) ↔ ChainFrom t xs ∧ ChainFrom (sumFold t xs) ys := by
  induction xs generalizing t with
  | nil => simp [ChainFrom, sumFold_nil]
  | cons m xs ih => simp [ChainFrom, sumFold_cons, ih, and_assoc]

lemma knownScalar_byte_size {b : BaseType} {kt : KnownType}
    (h : ReadKnownScalarType b = some kt) :
    kt.byte_size = 1 ∨ kt.byte_size = 4 := by
  cases b <;> simp [ReadKnownScalarType] at h <;>
    simp [← h, sizeofBool, sizeofScalar, sizeofUInt32, sizeofInt32]

/-- One step of the member loop: processing one member type emits a
non-empty block of members whose offsets chain from the running total,
after which the loop continues at the accumulated total with some
counter state; the accumulated total advances by exactly the member's
raw natural size (in `size_t` arithmetic) provided the declared width
fits in `uint32_t`. -/
lemma readStructMembersLoop_cons (c : Compiler) (fuel : Nat) (st : SPIRType)
    (mtid : Nat) (rest : List Nat) (i total counter : Nat) :
    ∃ ems k',
      readStructMembersLoop c fuel st (mtid :: rest) i total counter =
        (ems ++ (readStructMembersLoop c fuel st rest (i + 1)
            (sumFold total ems) k').1,
         (readStructMembersLoop c fuel st rest (i + 1)
            (sumFold total ems) k').2) ∧
      ems ≠ [] ∧
      ChainFrom total ems ∧
      ((c.types mtid).width < u32_mod →
        sumFold total ems = (total + rawSize (c.types mtid)) % size_t_mod) := by
  simp only [readStructMembersLoop]
  split_ifs with h1 h2 h3 h4 h5
  · -- Matrix
    refine ⟨[⟨"Matrix", (GetMemberNameAtIndex c fuel counter st i "").1,
      total, sizeofMatrix⟩], (GetMemberNameAtIndex c fuel counter st i "").2,
      rfl, by simp, by simp [ChainFrom], fun _ => ?_⟩
    obtain ⟨-, hw, hc, hv⟩ := h1
    simp [sumFold, rawSize, hw, hc, hv, sizeofMatrix, sizeofScalar, u32_mod]
  · -- Point
    refine ⟨[⟨"Point", (GetMemberNameAtIndex c fuel counter st i "").1,
      total, sizeofPoint⟩], (GetMemberNameAtIndex c fuel counter st i "").2,
      rfl, by simp, by simp [ChainFrom], fun _ => ?_⟩
    obtain ⟨-, hw, hc, hv⟩ := h2
    simp [sumFold, rawSize, hw, hc, hv, sizeofPoint, sizeofFloat, u32_mod]
  · -- Vector3
    refine ⟨[⟨"Vector3", (GetMemberNameAtIndex c fuel counter st i "").1,
      total, sizeofVector3⟩], (GetMemberNameAtIndex c fuel counter st i "").2,
      rfl, by simp, by simp [ChainFrom], fun _ => ?_⟩
    obtain ⟨-, hw, hc, hv⟩ := h3
    simp [sumFold, rawSize, hw, hc, hv, sizeofVector3, sizeofFloat, u32_mod]
  · -- Vector4
    refine ⟨[⟨"Vector4", (GetMemberNameAtIndex c fuel counter st i "").1,
      total, sizeofVector4⟩], (GetMemberNameAtIndex c fuel counter st i "").2,
      rfl, by simp, by simp [ChainFrom], fun _ => ?_⟩
    obtain ⟨-, hw, hc, hv⟩ := h4
    simp [sumFold, rawSize, hw, hc, hv, sizeofVector4, sizeofFloat, u32_mod]
  · -- single-component member of a recognized scalar base type
    cases hk : ReadKnownScalarType (c.types mtid).basetype with
    | some kt =>
        simp only [hk]
        split_ifs with h6
        · -- excess padding emitted
          refine ⟨[⟨kt.name, (GetMemberNameAtIndex c fuel counter st i "").1,
            total, kt.byte_size⟩,
            ⟨TypeNameWithPaddingOfSize
              (sizeTSub ((c.types mtid).width / 8) kt.byte_size),
            (GetMemberNameAtIndex c fuel
              (GetMemberNameAtIndex c fuel counter st i "").2 st i "_pad").1,
            (total + kt.byte_size) % size_t_mod,
            sizeTSub ((c.types mtid).width / 8) kt.byte_size⟩],
            (GetMemberNameAtIndex c fuel
              (GetMemberNameAtIndex c fuel counter st i "").2 st i "_pad").2,
            rfl, by simp, by simp [ChainFrom], fun hw => ?_⟩
          obtain ⟨hc, hv⟩ := h5
          have hbs := knownScalar_byte_size hk
          simp only [sumFold, List.foldl_cons, List.foldl_nil, rawSize, hc, hv,
            mul_one, Nat.mod_eq_of_lt hw]
          simp only [sizeTSub, size_t_mod] at *
          omega
        · -- no padding
          refine ⟨[⟨kt.name, (GetMemberNameAtIndex c fuel counter st i "").1,
            total, kt.byte_size⟩],
            (GetMemberNameAtIndex c fuel counter st i "").2,
            rfl, by simp, by simp [ChainFrom], fun hw => ?_⟩
          obtain ⟨hc, hv⟩ := h5
          have hbs := knownScalar_byte_size hk
          rw [not_not] at h6
          simp only [sumFold, List.foldl_cons, List.foldl_nil, rawSize, hc, hv,
            mul_one, Nat.mod_eq_of_lt hw]
          simp only [sizeTSub, size_t_mod] at *
          omega
    | none =>
        -- unknown type: catch-all
        simp only [hk]
        refine ⟨[⟨TypeNameWithPaddingOfSize (((c.types mtid).width *
            (c.types mtid).columns * (c.types mtid).vecsize) % u32_mod / 8),
          (GetMemberNameAtIndex c fuel counter st i "").1, total,
          ((c.types mtid).width * (c.types mtid).columns *
            (c.types mtid).vecsize) % u32_mod / 8⟩],
          (GetMemberNameAtIndex c fuel counter st i "").2,
          rfl, by simp, by simp [ChainFrom], fun _ => ?_⟩
        simp [sumFold, rawSize, Nat.mul_right_comm]
  · -- not single-component: catch-all regardless of the base type
    cases hk : ReadKnownScalarType (c.types mtid).basetype <;>
      · simp only [hk]
        refine ⟨[⟨TypeNameWithPaddingOfSize (((c.types mtid).width *
            (c.types mtid).columns * (c.types mtid).vecsize) % u32_mod / 8),
          (GetMemberNameAtIndex c fuel counter st i "").1, total,
          ((c.types mtid).width * (c.types mtid).columns *
            (c.types mtid).vecsize) % u32_mod / 8⟩],
          (GetMemberNameAtIndex c fuel counter st i "").2,
          rfl, by simp, by simp [ChainFrom], fun _ => ?_⟩
        simp [sumFold, rawSize, Nat.mul_right_comm]

/-- The offsets produced by the member loop chain from the initial
running total. -/
lemma chainFrom_readStructMembersLoop (c : Compiler) (fuel : Nat)
    (st : SPIRType) (tids : List Nat) :
    ∀ i total counter,
      ChainFrom total (readStructMembersLoop c fuel st tids i total counter).1 := by
  induction tids with
  | nil => intro i total counter; simp [readStructMembersLoop, ChainFrom]
  | cons mtid rest ih =>
      intro i total counter
      obtain ⟨ems, k', heq, -, hch, -⟩ :=
        readStructMembersLoop_cons c fuel st mtid rest i total counter
      rw [heq]
      exact (chainFrom_append total ems _).mpr ⟨hch, ih _ _ _⟩

/-- The `size_t` accumulation of the emitted byte lengths equals the
`size_t` accumulation of the raw member sizes, whenever every member
width fits in `uint32_t`. -/
lemma sumFold_readStructMembersLoop (c : Compiler) (fuel : Nat)
    (st : SPIRType) (tids : List Nat)
    (hw : ∀ mt ∈ tids, (c.types mt).width < u32_mod) :
    ∀ i total counter,
      sumFold total (readStructMembersLoop c fuel st tids i total counter).1 =
        tids.foldl (fun acc mt => (acc + rawSize (c.types mt)) % size_t_mod)
          total := by
  induction tids with
  | nil => intro i total counter; simp [readStructMembersLoop, sumFold]
  | cons mtid rest ih =>
      intro i total counter
      obtain ⟨ems, k', heq, -, -, hraw⟩ :=
        readStructMembersLoop_cons c fuel st mtid rest i total counter
      rw [heq, sumFold_append,
        ih (fun mt hmt => hw mt (List.mem_cons_of_mem _ hmt)) _ _ _,
        hraw (hw mtid (List.mem_cons_self _ _)), List.foldl_cons]

/-- In a chained member list starting at 0, the head offset is 0
(vacuously so for the empty list, whose default head has offset 0). -/
lemma chainFrom_headD {ms : List StructMember} (h : ChainFrom 0 ms) :
    (ms.headD dummyMember).offset = 0 := by
  cases ms with
  | nil => rfl
  | cons m ms => exact h.1

/-- In a chained member list, each member ends (in `size_t` arithmetic)
exactly where the next one begins. -/
lemma chainFrom_getD {ms : List StructMember} :
    ∀ {t : Nat} (_ : ChainFrom t ms) (i : Nat), i + 1 < ms.length →
      ((ms.getD i dummyMember).offset +
        (ms.getD i dummyMember).byte_length) % size_t_mod =
        (ms.getD (i + 1) dummyMember).offset := by
  induction ms with
  | nil => intro t _ i hlt; simp at hlt
  | cons m ms ih =>
      intro t h i hlt
      obtain ⟨hoff, hrest⟩ := h
      cases i with
      | zero =>
          cases ms with
          | nil => simp at hlt
          | cons m2 ms2 =>
              simpa [List.getD_cons_zero, List.getD_cons_succ, hoff] using
                hrest.1.symm
      | succ j =>
          simp only [List.getD_cons_succ]
          exact ih hrest j (by simpa using hlt)

/-- The per-vertex member loop chains offsets from its initial total. -/
lemma chainFrom_pvLoop (c : Compiler) (stage_inputs : List Resource) :
    ∀ (lst : List Nat) (total : Nat) (ms : List StructMember) (t : Nat),
      pvLoop c stage_inputs lst total = some (ms, t) → ChainFrom total ms := by
  intro lst
  induction lst with
  | nil =>
      intro total ms t h
      simp only [pvLoop, Option.some.injEq] at h
      obtain ⟨rfl, rfl⟩ := (Prod.mk.injEq _ _ _ _).mp h.symm
      trivial
  | cons i rest ih =>
      intro total ms t h
      simp only [pvLoop] at h
      cases hf : stage_inputs.find?
          (fun input => c.decorationLocation input.id == i) with
      | none => simp [hf] at h
      | some resource =>
          simp only [hf] at h
          cases hrec : pvLoop c stage_inputs rest
              ((total + (VertexTypeFromInputResource c resource).byte_length) %
                size_t_mod) with
          | none => simp [hrec] at h
          | some p =>
              simp only [hrec, Option.some.injEq] at h
              obtain ⟨rfl, rfl⟩ := (Prod.mk.injEq _ _ _ _).mp h.symm
              exact ⟨rfl, ih _ _ _ hrec⟩

/-- The per-vertex member loop succeeds whenever each queried location
is declared by some input. -/
lemma pvLoop_isSome (c : Compiler) (stage_inputs : List Resource) :
    ∀ (lst : List Nat) (total : Nat),
      (∀ i ∈ lst, ∃ r ∈ stage_inputs, c.decorationLocation r.id = i) →
        (pvLoop c stage_inputs lst total).isSome := by
  intro lst
  induction lst with
  | nil => intro total _; simp [pvLoop]
  | cons i rest ih =>
      intro total hall
      simp only [pvLoop]
      have hfind : (stage_inputs.find?
          (fun input => c.decorationLocation input.id == i)).isSome := by
        rw [List.find?_isSome]
        obtain ⟨r, hr, hloc⟩ := hall i (List.mem_cons_self _ _)
        exact ⟨r, hr, by simpa using hloc⟩
      cases hf : stage_inputs.find?
          (fun input => c.decorationLocation input.id == i) with
      | none => rw [hf] at hfind; simp at hfind
      | some resource =>
          have hrec := ih ((total +
              (VertexTypeFromInputResource c resource).byte_length) %
              size_t_mod)
            (fun j hj => hall j (List.mem_cons_of_mem _ hj))
          cases hrec' : pvLoop c stage_inputs rest
              ((total + (VertexTypeFromInputResource c resource).byte_length) %
                size_t_mod) with
          | none => rw [hrec'] at hrec; simp at hrec
          | some p => simp [hf, hrec']

/-- Whether `ReflectStructDefinition` yields a definition depends only
on the type being a struct with an unreserved name, not on the
anonymous-namer state. -/
lemma reflectStructDefinition_isSome (c : Compiler) (fuel counter tid : Nat) :
    (ReflectStructDefinition c fuel counter tid).isSome = reflectOK c tid := by
  simp only [ReflectStructDefinition, reflectOK]
  split_ifs with h1 h2 <;> simp_all [beq_iff_eq]

/-- `ReflectResources` succeeds on every list, reflecting each resource
in declaration order. -/
lemma reflectResources_eq (c : Compiler) (rs : List Resource) :
    ReflectResources c rs = some (rs.filterMap (ReflectResource c)) := by
  induction rs with
  | nil => rfl
  | cons r rest ih =>
      simp [ReflectResources, ReflectResource, ReflectType, ih,
        List.filterMap_cons]

/-- On a type with no alias, the member-name lookup reads the meta
entry directly, whatever the fuel. -/
lemma getMemberNameAtIndexIfExists_alias_zero (c : Compiler) {t : SPIRType}
    (h : t.type_alias = 0) (index : Nat) :
    ∀ fuel, GetMemberNameAtIndexIfExists c fuel t index =
      lookupMemberAlias c t index := by
  intro fuel
  cases fuel <;> simp [GetMemberNameAtIndexIfExists, h]

/-- A type id is reflected by the struct-definition scan iff it is not
already visited, occurs in the type sequence, and satisfies the
reflection guard. -/
lemma structDefsLoop_mem (c : Compiler) (fuel : Nat) :
    ∀ (seq : List SPIRType) (visited : List Nat) (counter id : Nat),
      id ∈ (structDefsLoop c fuel seq visited counter).1.map Prod.fst ↔
        (id ∉ visited ∧ id ∈ seq.map SPIRType.self ∧ reflectOK c id = true) := by
  intro seq
  induction seq with
  | nil => intro visited counter id; simp [structDefsLoop]
  | cons t rest ih =>
      intro visited counter id
      simp only [structDefsLoop]
      by_cases hv : t.self ∈ visited
      · rw [if_pos hv, ih]
        by_cases hid : id = t.self <;> simp_all [List.mem_cons]
      · rw [if_neg hv]
        cases hr : ReflectStructDefinition c fuel counter t.self with
        | some p =>
            obtain ⟨d, k2⟩ := p
            have hok : reflectOK c t.self = true := by
              rw [← reflectStructDefinition_isSome c fuel counter, hr]; rfl
            simp only [hr, List.map_cons, List.mem_cons]
            rw [ih]
            by_cases hid : id = t.self <;> simp_all [List.mem_cons]
        | none =>
            have hok : reflectOK c t.self = false := by
              rw [← reflectStructDefinition_isSome c fuel counter, hr]; rfl
            simp only [hr]
            rw [ih]
            by_cases hid : id = t.self <;> simp_all [List.mem_cons]

/-- The struct-definition scan never reflects the same type id twice. -/
lemma structDefsLoop_nodup (c : Compiler) (fuel : Nat) :
    ∀ (seq : List SPIRType) (visited : List Nat) (counter : Nat),
      ((structDefsLoop c fuel seq visited counter).1.map Prod.fst).Nodup := by
  intro seq
  induction seq with
  | nil => intro visited counter; simp [structDefsLoop]
  | cons t rest ih =>
      intro visited counter
      simp only [structDefsLoop]
      by_cases hv : t.self ∈ visited
      · rw [if_pos hv]; exact ih _ _
      · rw [if_neg hv]
        cases hr : ReflectStructDefinition c fuel counter t.self with
        | some p =>
            obtain ⟨d, k2⟩ := p
            simp only [hr, List.map_cons, List.nodup_cons]
            refine ⟨fun hmem => ?_, ih _ _⟩
            exact ((structDefsLoop_mem c fuel rest (t.self :: visited)
              k2 t.self).mp hmem).1 (List.mem_cons_self _ _)
        | none => simp only [hr]; exact ih _ _

/-- C1: every struct definition returned by `ReflectStructDefinition`
has `byte_length` (the `size_t` sum over raw members of
`width * vecsize * columns / 8`) equal to the `size_t` sum of the
`byte_length` fields of the members produced by `ReadStructMembers`,
injected padding members included.  (All member widths are `uint32_t`
values, expressed by the bound `hw`.) -/
theorem spec_c1 (c : Compiler) (fuel counter tid : Nat)
    (d : StructDefinition) (counter' : Nat)
    (hw : ∀ mt ∈ (c.types tid).member_types, (c.types mt).width < u32_mod)
    (h : ReflectStructDefinition c fuel counter tid = some (d, counter')) :
    d.byte_length = sumBytesSizeT d.members := by
  simp only [ReflectStructDefinition] at h
  split_ifs at h with h1 h2
  simp only [Option.some.injEq] at h
  obtain ⟨rfl, -⟩ := (Prod.mk.injEq _ _ _ _).mp h.symm
  exact (sumFold_readStructMembersLoop c fuel (c.types tid)
    (c.types tid).member_types hw 0 0 counter).symm

/-- Witness for C1: the sample struct (32-bit bool, 32-bit uint, 4x4
float matrix) satisfies the byte-length invariant. -/
theorem spec_c1_witness :
    ∃ d counter',
      ReflectStructDefinition sampleCompiler 1 0 0 = some (d, counter') ∧
        d.byte_length = sumBytesSizeT d.members := by
  obtain ⟨d, k, hd⟩ : ∃ d k,
      ReflectStructDefinition sampleCompiler 1 0 0 = some (d, k) := by
    cases hr : ReflectStructDefinition sampleCompiler 1 0 0 with
    | none => exact absurd hr (by decide)
    | some p => obtain ⟨d0, k0⟩ := p; exact ⟨d0, k0, rfl⟩
  exact ⟨d, k, hd, spec_c1 sampleCompiler 1 0 0 d k (by decide) hd⟩

/-- C2: in every member list produced by `ReadStructMembers` and in
every synthesized per-vertex structure, the first member's offset is 0
and each member ends (in `size_t` arithmetic) exactly where the next
member begins — gaps exist only as explicit padding members. -/
theorem spec_c2 :
    (∀ (c : Compiler) (fuel counter tid i : Nat),
      ((ReadStructMembers c fuel counter tid).1.headD dummyMember).offset = 0 ∧
      (i + 1 < (ReadStructMembers c fuel counter tid).1.length →
        (((ReadStructMembers c fuel counter tid).1.getD i dummyMember).offset +
          ((ReadStructMembers c fuel counter tid).1.getD i
            dummyMember).byte_length) % size_t_mod =
          ((ReadStructMembers c fuel counter tid).1.getD (i + 1)
            dummyMember).offset)) ∧
    (∀ (c : Compiler) (stage_inputs : List Resource) (s : StructDefinition)
        (i : Nat),
      ReflectPerVertexStructDefinition c stage_inputs = some s →
        (s.members.headD dummyMember).offset = 0 ∧
        (i + 1 < s.members.length →
          ((s.members.getD i dummyMember).offset +
            (s.members.getD i dummyMember).byte_length) % size_t_mod =
            (s.members.getD (i + 1) dummyMember).offset)) := by
  constructor
  · intro c fuel counter tid i
    have hch := chainFrom_readStructMembersLoop c fuel (c.types tid)
      (c.types tid).member_types 0 0 counter
    exact ⟨chainFrom_headD hch, fun hlt => chainFrom_getD hch i hlt⟩
  · intro c stage_inputs s i h
    simp only [ReflectPerVertexStructDefinition] at h
    split_ifs at h with h1 h2 h3
    cases hp : pvLoop c stage_inputs
        (List.range (locationsOf c stage_inputs).length) 0 with
    | none => simp [hp] at h
    | some p =>
        obtain ⟨ms, total⟩ := p
        simp only [hp, Option.some.injEq] at h
        have hch := chainFrom_pvLoop c stage_inputs _ _ _ _ hp
        subst h
        exact ⟨chainFrom_headD hch, fun hlt => chainFrom_getD hch i hlt⟩

/-- Witness for C2: in the sample struct the bool member at offset 0
ends where its padding member begins, and the synthesized PerVertexData
structure starts at offset 0 with its Point member ending where the
Vector4 member begins. -/
theorem spec_c2_witness :
    ((((ReadStructMembers sampleCompiler 1 0 0).1.getD 0 dummyMember).offset +
      ((ReadStructMembers sampleCompiler 1 0 0).1.getD 0
        dummyMember).byte_length) % size_t_mod =
      ((ReadStructMembers sampleCompiler 1 0 0).1.getD 1 dummyMember).offset) ∧
    ∃ s, ReflectPerVertexStructDefinition sampleCompiler
        sampleCompiler.shader_resources.stage_inputs = some s ∧
      ((s.members.headD dummyMember).offset = 0 ∧
        (0 + 1 < s.members.length →
          ((s.members.getD 0 dummyMember).offset +
            (s.members.getD 0 dummyMember).byte_length) % size_t_mod =
            (s.members.getD (0 + 1) dummyMember).offset)) := by
  obtain ⟨s, hs⟩ : ∃ s, ReflectPerVertexStructDefinition sampleCompiler
      sampleCompiler.shader_resources.stage_inputs = some s := by
    cases hr : ReflectPerVertexStructDefinition sampleCompiler
        sampleCompiler.shader_resources.stage_inputs with
    | none => exact absurd hr (by decide)
    | some s => exact ⟨s, rfl⟩
  exact ⟨(spec_c2.1 sampleCompiler 1 0 0 0).2 (by decide),
    s, hs, spec_c2.2 sampleCompiler _ s 0 hs⟩

/-- C5: for a struct all of whose members are recognized scalars (one
column, one component), the `size_t` sum of the emitted member byte
lengths, injected padding included, equals the struct's declared total
byte length (the `size_t` sum of `width * vecsize * columns / 8` over
its raw members). -/
theorem spec_c5 (c : Compiler) (fuel counter tid : Nat)
    (_hstruct : (c.types tid).basetype = BaseType.Struct)
    (hall : ∀ mt ∈ (c.types tid).member_types,
      (ReadKnownScalarType (c.types mt).basetype).isSome = true ∧
        (c.types mt).columns = 1 ∧ (c.types mt).vecsize = 1 ∧
        (c.types mt).width < u32_mod) :
    sumBytesSizeT (ReadStructMembers c fuel counter tid).1 =
      rawByteLength c (c.types tid) :=
  sumFold_readStructMembersLoop c fuel (c.types tid)
    (c.types tid).member_types (fun mt hmt => (hall mt hmt).2.2.2) 0 0 counter

/-- Witness for C5: the all-scalar sample struct (32-bit bool plus
32-bit uint) has emitted byte lengths summing to its declared total of
8 bytes. -/
theorem spec_c5_witness :
    sumBytesSizeT (ReadStructMembers sampleCompiler 1 0 5).1 =
      rawByteLength sampleCompiler (sampleCompiler.types 5) ∧
    rawByteLength sampleCompiler (sampleCompiler.types 5) = 8 :=
  ⟨spec_c5 sampleCompiler 1 0 5 (by decide) (by decide), by decide⟩

/-- C9: on a type whose alias chain reaches alias id 0 in `n` steps,
`GetMemberNameAtIndexIfExists` terminates for every fuel bound of at
least `n`, forwarding the lookup to the underlying root type, where it
returns the declared member alias if one exists at the index and no
name otherwise (`lookupMemberAlias`). -/
theorem spec_c9 (c : Compiler) (t root : SPIRType) (index n fuel : Nat)
    (hroot : resolveAliasRoot c n t = some root) (hfuel : n ≤ fuel) :
    GetMemberNameAtIndexIfExists c fuel t index =
      lookupMemberAlias c root index := by
  induction n generalizing t fuel with
  | zero =>
      simp only [resolveAliasRoot] at hroot
      split_ifs at hroot with h0
      obtain rfl := Option.some.inj hroot
      rw [getMemberNameAtIndexIfExists_alias_zero c h0]
  | succ m ih =>
      simp only [resolveAliasRoot] at hroot
      split_ifs at hroot with h0
      · obtain rfl := Option.some.inj hroot
        rw [getMemberNameAtIndexIfExists_alias_zero c h0]
      · cases fuel with
        | zero => omega
        | succ f =>
            rw [show GetMemberNameAtIndexIfExists c (f + 1) t index =
              GetMemberNameAtIndexIfExists c f (c.types t.type_alias) index
              from by simp [GetMemberNameAtIndexIfExists, h0]]
            exact ih _ _ hroot (by omega)

/-- Witness for C9: the two-step alias chain of `aliasCompiler` resolves
member 0's name through the chain to the declared alias "x", and member
1 (declared with an empty alias) to no name. -/
theorem spec_c9_witness :
    (GetMemberNameAtIndexIfExists aliasCompiler 2 aliasedType 0 =
      lookupMemberAlias aliasCompiler (aliasCompiler.types 7) 0) ∧
    GetMemberNameAtIndexIfExists aliasCompiler 2 aliasedType 0 = some "x" ∧
    GetMemberNameAtIndexIfExists aliasCompiler 2 aliasedType 1 = none :=
  ⟨spec_c9 aliasCompiler aliasedType (aliasCompiler.types 7) 0 2 2
    (by decide) (by decide), by decide, by decide⟩

/-- C3: per-vertex synthesis returns a structure iff the stage-input
list is non-empty and the declared locations of its `k` inputs are
exactly `{0, ..., k-1}` with no duplicates. -/
theorem spec_c3 (c : Compiler) (stage_inputs : List Resource) :
    (ReflectPerVertexStructDefinition c stage_inputs).isSome = true ↔
      (stage_inputs ≠ [] ∧ (locationsOf c stage_inputs).Nodup ∧
        ∀ l, l ∈ locationsOf c stage_inputs ↔ l < stage_inputs.length) := by
  have hlen : (locationsOf c stage_inputs).length = stage_inputs.length :=
    List.length_map _ _
  constructor
  · intro h
    simp only [ReflectPerVertexStructDefinition] at h
    split_ifs at h with h1 h2 h3
    · exact absurd h (by simp)
    · rw [List.all_eq_true] at h3
      refine ⟨fun hnil => h1 (by simp [hnil]), h2, fun l => ?_⟩
      have hmem : ∀ x, x < (locationsOf c stage_inputs).length →
          x ∈ locationsOf c stage_inputs := by
        intro x hx
        have := h3 x (List.mem_range.mpr hx)
        simpa using this
      have hsub : Finset.range (locationsOf c stage_inputs).length ⊆
          (locationsOf c stage_inputs).toFinset := by
        intro x hx
        rw [List.mem_toFinset]
        exact hmem x (Finset.mem_range.mp hx)
      have hcard : (locationsOf c stage_inputs).toFinset.card =
          (locationsOf c stage_inputs).length :=
        List.toFinset_card_of_nodup h2
      have heq : Finset.range (locationsOf c stage_inputs).length =
          (locationsOf c stage_inputs).toFinset :=
        Finset.eq_of_subset_of_card_le hsub (by rw [hcard, Finset.card_range])
      constructor
      · intro hl
        have : l ∈ Finset.range (locationsOf c stage_inputs).length := by
          rw [heq, List.mem_toFinset]; exact hl
        rw [← hlen]; exact Finset.mem_range.mp this
      · intro hl
        exact hmem l (by rw [hlen]; exact hl)
    · exact absurd h (by simp)
    · exact absurd h (by simp)
  · rintro ⟨hne, hdup, hiff⟩
    simp only [ReflectPerVertexStructDefinition]
    rw [if_neg (by simp [List.isEmpty_iff, hne]), if_pos hdup, if_pos]
    · have hprem : ∀ i ∈ List.range (locationsOf c stage_inputs).length,
          ∃ r ∈ stage_inputs, c.decorationLocation r.id = i := by
        intro i hi
        have : i ∈ locationsOf c stage_inputs :=
          (hiff i).mpr (by rw [← hlen]; exact List.mem_range.mp hi)
        obtain ⟨r, hr, hloc⟩ := List.mem_map.mp this
        exact ⟨r, hr, hloc⟩
      have hsome := pvLoop_isSome c stage_inputs
        (List.range (locationsOf c stage_inputs).length) 0 hprem
      cases hp : pvLoop c stage_inputs
          (List.range (locationsOf c stage_inputs).length) 0 with
      | none => rw [hp] at hsome; simp at hsome
      | some p => obtain ⟨ms, total⟩ := p; simp [hp]
    · rw [List.all_eq_true]
      intro x hx
      have : x ∈ locationsOf c stage_inputs :=
        (hiff x).mpr (by rw [← hlen]; exact List.mem_range.mp hx)
      simpa using this

/-- Witness for C3: the sample module's two inputs at locations 0 and 1
synthesize a structure, so they are non-empty, duplicate-free and
contiguous. -/
theorem spec_c3_witness :
    sampleCompiler.shader_resources.stage_inputs ≠ [] ∧
    (locationsOf sampleCompiler
      sampleCompiler.shader_resources.stage_inputs).Nodup ∧
    ∀ l, l ∈ locationsOf sampleCompiler
        sampleCompiler.shader_resources.stage_inputs ↔
      l < sampleCompiler.shader_resources.stage_inputs.length :=
  (spec_c3 sampleCompiler _).mp (by decide)

/-- C4 is refuted as stated: a `Float` scalar member declared at bit
width 33 is a recognized scalar whose declared width exceeds 8 times
the mapped byte size (33 > 32), yet `ReadStructMembers` emits it alone,
with no trailing padding member (since `33 / 8 = 4 = sizeof(Scalar)`).
-/
theorem spec_c4_counterexample :
    ReadKnownScalarType (width33Compiler.types 1).basetype =
      some { name := "Scalar", byte_size := sizeofScalar } ∧
    (width33Compiler.types 1).columns = 1 ∧
    (width33Compiler.types 1).vecsize = 1 ∧
    8 * sizeofScalar < (width33Compiler.types 1).width ∧
    (width33Compiler.types 0).member_types = [1] ∧
    (ReadStructMembers width33Compiler 1 0 0).1.map memberShape =
      [("Scalar", 0, sizeofScalar)] := by
  decide

/-- C4 (amended): for a struct member that is a recognized scalar (one
column, one component), `ReadStructMembers` emits the mapped scalar
member and, exactly when `width / 8` (integer division) differs from
the mapped byte size, one immediately following padding member whose
byte length is `width / 8 - byte_size` computed in `size_t` (wrapping)
arithmetic; a boolean declared at 32-bit width thus yields a bool
member plus a trailing padding member of length `4 - sizeof(bool)`. -/
theorem spec_c4_amended (c : Compiler) (fuel : Nat) (st : SPIRType)
    (mtid : Nat) (rest : List Nat) (i total counter : Nat) (kt : KnownType)
    (hk : ReadKnownScalarType (c.types mtid).basetype = some kt)
    (hc : (c.types mtid).columns = 1) (hv : (c.types mtid).vecsize = 1)
    (hw : (c.types mtid).width < u32_mod) :
    (∃ k',
      if sizeTSub ((c.types mtid).width / 8) kt.byte_size = 0 then
        (readStructMembersLoop c fuel st (mtid :: rest) i total
            counter).1.map memberShape =
          (kt.name, total, kt.byte_size) ::
            (readStructMembersLoop c fuel st rest (i + 1)
              ((total + kt.byte_size) % size_t_mod) k').1.map memberShape
      else
        (readStructMembersLoop c fuel st (mtid :: rest) i total
            counter).1.map memberShape =
          (kt.name, total, kt.byte_size) ::
            (TypeNameWithPaddingOfSize
              (sizeTSub ((c.types mtid).width / 8) kt.byte_size),
             (total + kt.byte_size) % size_t_mod,
             sizeTSub ((c.types mtid).width / 8) kt.byte_size) ::
              (readStructMembersLoop c fuel st rest (i + 1)
                (((total + kt.byte_size) % size_t_mod +
                  sizeTSub ((c.types mtid).width / 8) kt.byte_size) %
                  size_t_mod) k').1.map memberShape) ∧
    (sizeTSub ((c.types mtid).width / 8) kt.byte_size = 0 ↔
      (c.types mtid).width / 8 = kt.byte_size) := by
  have hbs := knownScalar_byte_size hk
  have hm1 : ¬((c.types mtid).basetype = BaseType.Float ∧
      (c.types mtid).width = sizeofScalar * 8 ∧
      (c.types mtid).columns = 4 ∧ (c.types mtid).vecsize = 4) := by
    rintro ⟨-, -, h4, -⟩; rw [hc] at h4; exact absurd h4 (by norm_num)
  have hm2 : ¬((c.types mtid).basetype = BaseType.Float ∧
      (c.types mtid).width = sizeofFloat * 8 ∧
      (c.types mtid).columns = 1 ∧ (c.types mtid).vecsize = 2) := by
    rintro ⟨-, -, -, h4⟩; rw [hv] at h4; exact absurd h4 (by norm_num)
  have hm3 : ¬((c.types mtid).basetype = BaseType.Float ∧
      (c.types mtid).width = sizeofFloat * 8 ∧
      (c.types mtid).columns = 1 ∧ (c.types mtid).vecsize = 3) := by
    rintro ⟨-, -, -, h4⟩; rw [hv] at h4; exact absurd h4 (by norm_num)
  have hm4 : ¬((c.types mtid).basetype = BaseType.Float ∧
      (c.types mtid).width = sizeofFloat * 8 ∧
      (c.types mtid).columns = 1 ∧ (c.types mtid).vecsize = 4) := by
    rintro ⟨-, -, -, h4⟩; rw [hv] at h4; exact absurd h4 (by norm_num)
  have hiff : sizeTSub ((c.types mtid).width / 8) kt.byte_size = 0 ↔
      (c.types mtid).width / 8 = kt.byte_size := by
    simp only [sizeTSub, size_t_mod, u32_mod] at *
    omega
  constructor
  · by_cases hpad : sizeTSub ((c.types mtid).width / 8) kt.byte_size = 0
    · refine ⟨(GetMemberNameAtIndex c fuel counter st i "").2, ?_⟩
      rw [if_pos hpad]
      simp only [readStructMembersLoop, if_neg hm1, if_neg hm2, if_neg hm3,
        if_neg hm4, hk, if_pos (And.intro hc hv), if_neg (not_not.mpr hpad)]
      simp [memberShape]
    · refine ⟨(GetMemberNameAtIndex c fuel
        (GetMemberNameAtIndex c fuel counter st i "").2 st i "_pad").2, ?_⟩
      rw [if_neg hpad]
      simp only [readStructMembersLoop, if_neg hm1, if_neg hm2, if_neg hm3,
        if_neg hm4, hk, if_pos (And.intro hc hv), if_pos hpad]
      simp [memberShape]
  · exact hiff

/-- Witness for C4 (amended): a boolean member declared at 32-bit width
emits a bool member of 1 byte followed by a padding member of
`4 - sizeof(bool) = 3` bytes, and `32 / 8 = 4 ≠ 1` matches the padding
condition. -/
theorem spec_c4_amended_witness :
    (∃ k',
      if sizeTSub ((sampleCompiler.types 1).width / 8) sizeofBool = 0 then
        (readStructMembersLoop sampleCompiler 1 (sampleCompiler.types 0)
            [1] 0 0 0).1.map memberShape =
          ("bool", 0, sizeofBool) ::
            (readStructMembersLoop sampleCompiler 1 (sampleCompiler.types 0)
              [] 1 ((0 + sizeofBool) % size_t_mod) k').1.map memberShape
      else
        (readStructMembersLoop sampleCompiler 1 (sampleCompiler.types 0)
            [1] 0 0 0).1.map memberShape =
          ("bool", 0, sizeofBool) ::
            (TypeNameWithPaddingOfSize
              (sizeTSub ((sampleCompiler.types 1).width / 8) sizeofBool),
             (0 + sizeofBool) % size_t_mod,
             sizeTSub ((sampleCompiler.types 1).width / 8) sizeofBool) ::
              (readStructMembersLoop sampleCompiler 1 (sampleCompiler.types 0)
                [] 1 (((0 + sizeofBool) % size_t_mod +
                  sizeTSub ((sampleCompiler.types 1).width / 8) sizeofBool) %
                  size_t_mod) k').1.map memberShape) ∧
    (sizeTSub ((sampleCompiler.types 1).width / 8) sizeofBool = 0 ↔
      (sampleCompiler.types 1).width / 8 = sizeofBool) :=
  spec_c4_amended sampleCompiler 1 (sampleCompiler.types 0) 1 [] 0 0 0
    { name := "bool", byte_size := sizeofBool }
    (by decide) (by decide) (by decide) (by decide)

/-- C10: `ReflectType` returns a descriptor for every type id, so the
type-resolution failure branch of `ReflectResource` is unreachable and
`ReflectResources` succeeds on every resource list. -/
theorem spec_c10 (c : Compiler) :
    (∀ tid, (ReflectType c tid).isSome = true) ∧
    (∀ r, (ReflectResource c r).isSome = true) ∧
    (∀ rs, (ReflectResources c rs).isSome = true) := by
  refine ⟨fun tid => rfl, fun r => rfl, fun rs => ?_⟩
  rw [reflectResources_eq]
  rfl

/-- C6: within one document build, the struct-definition scan reflects
each struct type identifier at most once — exactly once when the type
sequence yields it and it is reflectable — and the final document's
`struct_definitions` list is the per-vertex part followed by the
scan's definitions. -/
theorem spec_c6 (c : Compiler) (opts : Options) (fuel counter : Nat)
    (id : Nat) :
    (((structDefsLoop c fuel c.typeSeq [] counter).1.map Prod.fst).count id =
      if id ∈ c.typeSeq.map SPIRType.self ∧
          (ReflectStructDefinition c fuel counter id).isSome = true
      then 1 else 0) ∧
    (∀ root, GenerateTemplateArguments c opts fuel counter = some root →
      root.struct_definitions =
        pvStructPart c ++
          (structDefsLoop c fuel c.typeSeq [] counter).1.map Prod.snd) := by
  constructor
  · rw [reflectStructDefinition_isSome]
    by_cases hcond : id ∈ c.typeSeq.map SPIRType.self ∧ reflectOK c id = true
    · rw [if_pos hcond]
      have hmem : id ∈
          (structDefsLoop c fuel c.typeSeq [] counter).1.map Prod.fst :=
        (structDefsLoop_mem c fuel c.typeSeq [] counter id).mpr
          ⟨by simp, hcond.1, hcond.2⟩
      exact List.count_eq_one_of_mem (structDefsLoop_nodup c fuel _ _ _) hmem
    · rw [if_neg hcond]
      rw [List.count_eq_zero]
      intro hmem
      have := (structDefsLoop_mem c fuel c.typeSeq [] counter id).mp hmem
      exact hcond ⟨this.2.1, this.2.2⟩
  · intro root h
    simp only [GenerateTemplateArguments] at h
    rcases hep : c.entry_points with _ | ⟨ep, _ | ⟨b, l⟩⟩
    · rw [hep] at h; simp at h
    · rw [hep] at h
      simp only [reflectResources_eq] at h
      obtain rfl := Option.some.inj h
      rfl
    · rw [hep] at h; simp at h

/-- Witness for C6: the sample type sequence yields struct id 0 twice,
yet exactly one definition for id 0 is emitted, and the sample
document's `struct_definitions` is the synthesized per-vertex structure
followed by the scanned definitions. -/
theorem spec_c6_witness :
    (((structDefsLoop sampleCompiler 1 sampleCompiler.typeSeq [] 0).1.map
      Prod.fst).count 0 = 1) ∧
    ∃ root,
      GenerateTemplateArguments sampleCompiler sampleOptions 1 0 =
        some root ∧
      root.struct_definitions = pvStructPart sampleCompiler ++
        (structDefsLoop sampleCompiler 1 sampleCompiler.typeSeq [] 0).1.map
          Prod.snd := by
  constructor
  · rw [(spec_c6 sampleCompiler sampleOptions 1 0 0).1, if_pos]
    exact ⟨by decide, by decide⟩
  · obtain ⟨root, hroot⟩ : ∃ root,
        GenerateTemplateArguments sampleCompiler sampleOptions 1 0 =
          some root := by
      cases hr : GenerateTemplateArguments sampleCompiler sampleOptions 1 0 with
      | none => exact absurd hr (by decide)
      | some r => exact ⟨r, rfl⟩
    exact ⟨root, hroot,
      (spec_c6 sampleCompiler sampleOptions 1 0 0).2 root hroot⟩

/-- C7: in every assembled document, `sampled_images` is the
concatenation of the reflected combined sampled images, then the
separate images, then the separate samplers, each category reflected in
its own declaration order. -/
theorem spec_c7 (c : Compiler) (opts : Options) (fuel counter : Nat)
    (root : RootDoc)
    (h : GenerateTemplateArguments c opts fuel counter = some root) :
    root.sampled_images =
      c.shader_resources.sampled_images.filterMap (ReflectResource c) ++
        c.shader_resources.separate_images.filterMap (ReflectResource c) ++
        c.shader_resources.separate_samplers.filterMap (ReflectResource c) := by
  simp only [GenerateTemplateArguments] at h
  rcases hep : c.entry_points with _ | ⟨ep, _ | ⟨b, l⟩⟩
  · rw [hep] at h; simp at h
  · rw [hep] at h
    simp only [reflectResources_eq] at h
    obtain rfl := Option.some.inj h
    rfl
  · rw [hep] at h; simp at h

/-- Witness for C7: the sample module declares one combined sampled
image "tex", one separate image "img" and one separate sampler "smp",
and the assembled document lists them in exactly that order. -/
theorem spec_c7_witness :
    ∃ root,
      GenerateTemplateArguments sampleCompiler sampleOptions 1 0 =
        some root ∧
      root.sampled_images =
        sampleCompiler.shader_resources.sampled_images.filterMap
          (ReflectResource sampleCompiler) ++
          sampleCompiler.shader_resources.separate_images.filterMap
            (ReflectResource sampleCompiler) ++
          sampleCompiler.shader_resources.separate_samplers.filterMap
            (ReflectResource sampleCompiler) ∧
      root.sampled_images.map (fun r => r.name) = ["tex", "img", "smp"] := by
  obtain ⟨root, hroot⟩ : ∃ root,
      GenerateTemplateArguments sampleCompiler sampleOptions 1 0 =
        some root := by
    cases hr : GenerateTemplateArguments sampleCompiler sampleOptions 1 0 with
    | none => exact absurd hr (by decide)
    | some r => exact ⟨r, rfl⟩
  refine ⟨root, hroot, spec_c7 sampleCompiler sampleOptions 1 0 root hroot, ?_⟩
  rw [spec_c7 sampleCompiler sampleOptions 1 0 root hroot]
  decide

/-- C8: when the module's entry-point count differs from one, document
assembly yields nothing — whatever the resource lists contain — and the
constructed reflector holds no document, no header artifact, no
implementation artifact, and is not valid. -/
theorem spec_c8 (c : Compiler) (opts : Options) (fuel counter : Nat)
    (renderHeader renderCC : RootDoc → Option String)
    (h : c.entry_points.length ≠ 1) :
    GenerateTemplateArguments c opts fuel counter = none ∧
    (∀ sr, GenerateTemplateArguments { c with shader_resources := sr } opts
      fuel counter = none) ∧
    mkReflector c opts fuel counter renderHeader renderCC =
      { template_arguments := none, reflection_header := none,
        reflection_cc := none, is_valid := false } := by
  have hgen : ∀ sr, GenerateTemplateArguments
      { c with shader_resources := sr } opts fuel counter = none := by
    intro sr
    simp only [GenerateTemplateArguments]
    rcases hep : c.entry_points with _ | ⟨ep, _ | ⟨b, l⟩⟩
    · simp [hep]
    · exact absurd (by rw [hep]; rfl) h
    · simp [hep]
  have hgen0 : GenerateTemplateArguments c opts fuel counter = none := by
    have := hgen c.shader_resources
    simpa using this
  refine ⟨hgen0, hgen, ?_⟩
  simp only [mkReflector, hgen0]

/-- Witness for C8: the zero-entry-point module assembles no document
and its reflector is invalid with no artifacts. -/
theorem spec_c8_witness :
    GenerateTemplateArguments noEntryCompiler sampleOptions 1 0 = none ∧
    (∀ sr, GenerateTemplateArguments
      { noEntryCompiler with shader_resources := sr } sampleOptions 1 0 =
        none) ∧
    mkReflector noEntryCompiler sampleOptions 1 0 (fun _ => some "h")
        (fun _ => some "c") =
      { template_arguments := none, reflection_header := none,
        reflection_cc := none, is_valid := false } :=
  spec_c8 noEntryCompiler sampleOptions 1 0 _ _ (by decide)

end Impeller
